import Mathlib

/-
Verification development for the ai-data-analyst backend.

Shallow embedding of the security, authentication and workspace layers:
  * Security    — src/backend/security.py
  * Auth        — src/backend/auth.py
  * Svc         — src/backend/services/workspace_service.py
  * Legacy      — src/backend/workspace_service.py

Python database state is modelled as explicit record-of-lists state,
SQL statements that the code builds as strings are modelled as the same
strings, raised exceptions as Except errors, and Python truthiness
explicitly where the code relies on it.
-/

deriving instance DecidableEq for Except

/-- Python str.upper for the ASCII strings the backend handles, computed
characterwise so that concrete instances evaluate. -/
def pyUpper (s : String) : String :=
  String.mk (s.toList.map Char.toUpper)

/-- Python str.startswith, as a character-prefix test. -/
def strStartsWith (s pre : String) : Bool :=
  pre.toList.isPrefixOf s.toList

/-- Python emptiness test of a string (its truthiness test), computed on
the character list. -/
def pyStrEmpty (s : String) : Bool :=
  s.toList.isEmpty

namespace Security

/-- A table of the analytics store: its name, its column names, and the
ownership (user_id) value of each data row.  Only the ownership column of
a row matters to the functions modelled here, so a row is represented by
its owner id. -/
structure DBTable where
  name : String
  columns : List String
  rowOwners : List Nat
deriving DecidableEq

/-- The analytics store visible through the sqlalchemy inspector. -/
structure SqlDB where
  tables : List DBTable
deriving DecidableEq

/-- Look a table up by name, as the sqlalchemy inspector does. -/
def findTable (db : SqlDB) (tname : String) : Option DBTable :=
  db.tables.find? (fun t => t.name == tname)

/-- System tables listed in validate_table_access. -/
def SYSTEM_TABLES : List String :=
  ["users", "_column_metadata", "_table_metadata", "_schema",
   "_schema_changelog", "_migrations", "sqlite_sequence", "alembic_version"]

/-- Number of rows of a table owned by a given user, i.e. the result of
SELECT COUNT(*) FROM table WHERE user_id = :user_id. -/
def ownedRowCount (t : DBTable) (uid : Nat) : Nat :=
  (t.rowOwners.filter (fun r => r == uid)).length

/-- Embedding of security.validate_table_access.  Raising ValueError is
modelled as returning an error value. -/
def validate_table_access (db : SqlDB) (table_name : String) (user_id : Nat) :
    Except String Bool :=
  match findTable db table_name with
  | none => .error ("Table " ++ table_name ++ " not found")
  | some t =>
    if SYSTEM_TABLES.contains table_name || strStartsWith table_name "_" then
      .error ("Access denied to system table " ++ table_name)
    else if t.columns.contains "user_id" then
      if ownedRowCount t user_id == 0 then
        .error ("Access denied: You have no data in table " ++ table_name)
      else .ok true
    else .ok true

/-- Python truthiness of an optional string (None and the empty string are
falsy). -/
def pyTruthy : Option String → Bool
  | none => false
  | some s => !pyStrEmpty s

/-- Whether pat occurs as a substring of s, i.e. the Python test pat in s
for a non-empty pat. -/
def containsSub (s pat : String) : Bool :=
  (s.splitOn pat).length > 1

/-- Character index of the first occurrence of pat in s (the Python
s.index(pat)); meaningful only when pat occurs. -/
def indexOfSub (s pat : String) : Nat :=
  ((s.splitOn pat).headD s).length

/-- Replace the first occurrence of pat in s by repl, i.e. the Python
s.replace(pat, repl, 1). -/
def replaceFirst (s pat repl : String) : String :=
  match s.splitOn pat with
  | [] => s
  | [_] => s
  | p :: rest => p ++ repl ++ String.intercalate pat rest

/-- Helper for the keyword loop of get_user_filtered_query: splice the
WHERE filter in front of the first clause keyword present, or append it
when none is. -/
def spliceBeforeKeyword (b : String) (uid : Nat) : List String → String
  | [] => b ++ " WHERE user_id = " ++ toString uid
  | kw :: rest =>
    if containsSub (pyUpper b) kw then
      let idx := indexOfSub (pyUpper b) kw
      b.take idx ++ " WHERE user_id = " ++ toString uid ++ " " ++ b.drop idx
    else spliceBeforeKeyword b uid rest

/-- Embedding of security.get_user_filtered_query.  The Python function
formats user_id into the statement text with an f-string; the embedding
reproduces that text exactly.  base none models base_query=None. -/
def get_user_filtered_query (db : SqlDB) (table_name : String) (user_id : Nat)
    (base : Option String) : String :=
  let columns := match findTable db table_name with
    | some t => t.columns
    | none => []
  if !(columns.contains "user_id") then
    -- return base_query if base_query else ""
    match base with
    | none => ""
    | some b => if pyStrEmpty b then "" else b
  else
    match base with
    | none => "WHERE user_id = " ++ toString user_id
    | some b =>
      if pyStrEmpty b then "WHERE user_id = " ++ toString user_id
      else if containsSub (pyUpper b) "WHERE" then
        replaceFirst b "WHERE" ("WHERE user_id = " ++ toString user_id ++ " AND")
      else
        spliceBeforeKeyword b user_id ["ORDER BY", "LIMIT", "OFFSET", "GROUP BY"]

/-- Characters the identifier regex of sanitize_sql_identifier allows. -/
def isAllowedIdentChar (c : Char) : Bool :=
  c.isAlphanum || c == '_' || c == '-'

/-- Python re.match of the pattern anchored with a dollar sign: one or
more allowed characters, where the dollar also matches just before a
single trailing newline. -/
def matchesIdentPattern (s : String) : Bool :=
  let cs := s.toList
  (!cs.isEmpty && cs.all isAllowedIdentChar) ||
    (cs.getLast? == some '\n' && !cs.dropLast.isEmpty &&
      cs.dropLast.all isAllowedIdentChar)

/-- Reserved words refused by sanitize_sql_identifier. -/
def SQL_KEYWORDS : List String :=
  ["SELECT", "INSERT", "UPDATE", "DELETE", "DROP", "CREATE",
   "ALTER", "TRUNCATE", "EXEC", "EXECUTE", "UNION", "FROM", "WHERE"]

/-- Embedding of security.sanitize_sql_identifier. -/
def sanitize_sql_identifier (identifier : String) : Except String String :=
  if !matchesIdentPattern identifier then
    .error "Invalid identifier: only alphanumeric, underscore, and hyphen allowed"
  else if SQL_KEYWORDS.contains (pyUpper identifier) then
    .error "SQL keyword cannot be used as identifier"
  else .ok identifier

/-- Small concrete store used by witnesses and counterexamples: a tenant
table with an ownership column, one without, and a system table. -/
def exDB : SqlDB :=
  { tables :=
      [ { name := "sales", columns := ["user_id", "amount"], rowOwners := [7, 7, 9] },
        { name := "lookup_codes", columns := ["code", "label"], rowOwners := [] },
        { name := "users", columns := ["id", "email"], rowOwners := [] } ] }

end Security

namespace Auth

/-- Claims carried by a decodable bearer token, as jose get_unverified_claims
exposes them to auth.py: the fields the module reads.  A field holding none
models an absent claim. -/
structure TokenPayload where
  sub : Option String
  email : Option String
  exp : Option Nat
  metaFullName : Option String
  metaName : Option String
deriving DecidableEq

/-- A raw credential: none models a token jose cannot decode (malformed, or
an empty claims object), some p a token decoding to claims p. -/
abbrev RawToken := Option TokenPayload

/-- The expiry rejection of auth.py: the Python test is if exp and now > exp,
so a missing or zero exp claim is never treated as expired. -/
def expRejected (exp : Option Nat) (now : Nat) : Bool :=
  match exp with
  | none => false
  | some e => e != 0 && decide (now > e)

/-- Embedding of auth.decode_supabase_token_sync: decode without signature
verification, reject expired tokens and tokens with a falsy sub claim,
otherwise hand the claims back.  No external call is made. -/
def decode_supabase_token_sync (tok : RawToken) (now : Nat) : Option TokenPayload :=
  match tok with
  | none => none
  | some p =>
    if expRejected p.exp now then none
    else if !Security.pyTruthy p.sub then none
    else some p

/-- Embedding of auth.verify_supabase_token: this one does consult the
external identity verifier (the Supabase user endpoint), modelled as an
oracle on the raw credential, and rejects whenever it does not confirm. -/
def verify_supabase_token (verifier : RawToken → Bool) (tok : RawToken)
    (now : Nat) : Option TokenPayload :=
  match tok with
  | none => none
  | some p =>
    if expRejected p.exp now then none
    else if verifier tok then some p
    else none

/-- A local User row as auth.py reads and writes it. -/
structure UserRow where
  id : Nat
  supabaseUid : Option String
  email : String
  fullName : String
deriving DecidableEq

/-- The local user store together with the id the next insert receives. -/
structure AuthDB where
  users : List UserRow
  nextId : Nat
deriving DecidableEq

/-- Outcomes of a failed get_current_user_id call: an HTTPException with
status 401 and a detail string, or the uncaught AttributeError raised when
email is None and the metadata carries no name (line 139 of auth.py runs
before the claims check). -/
inductive AuthFailure where
  | unauthenticated (detail : String)
  | attributeErr
deriving DecidableEq

/-- The full_name computation of get_current_user_id: metadata full_name,
else metadata name, else the part of the email before the at sign; none
models the AttributeError when email is None and both metadata names are
falsy.  Python or skips falsy (empty) strings. -/
def fullNameOf (p : TokenPayload) : Option String :=
  if Security.pyTruthy p.metaFullName then p.metaFullName
  else if Security.pyTruthy p.metaName then p.metaName
  else match p.email with
    | none => none
    | some e => some ((e.splitOn "@").headD e)

/-- Embedding of auth.get_current_user_id.  The external verifier is in
scope as an oracle argument (it is what verify_supabase_token consults) but
the Python function never calls it: it relies on decode_supabase_token_sync
alone, then syncs the local user store and returns the local id. -/
def get_current_user_id (verifier : RawToken → Bool) (tok : RawToken)
    (now : Nat) (db : AuthDB) : Except AuthFailure (Nat × AuthDB) :=
  match decode_supabase_token_sync tok now with
  | none => .error (.unauthenticated "Invalid or expired token")
  | some payload =>
    match fullNameOf payload with
    | none => .error .attributeErr
    | some fname =>
      if !(Security.pyTruthy payload.sub && Security.pyTruthy payload.email) then
        .error (.unauthenticated "Token missing required claims")
      else
        let subv := payload.sub.getD ""
        let emailv := payload.email.getD ""
        match db.users.find? (fun u => u.supabaseUid == some subv) with
        | some u => .ok (u.id, db)
        | none =>
          match db.users.find? (fun u => u.email == emailv) with
          | some u =>
            let linked :=
              db.users.map (fun v =>
                if v.id == u.id then { v with supabaseUid := some subv } else v)
            .ok (u.id, { db with users := linked })
          | none =>
            let fresh : UserRow :=
              { id := db.nextId, supabaseUid := some subv,
                email := emailv, fullName := fname }
            .ok (db.nextId, { users := db.users ++ [fresh], nextId := db.nextId + 1 })

/-- Embedding of auth.get_optional_user_id.  The credential is optional
(cred none models a request without a bearer header) and the whole body sits
in a try/except returning None, so the embedding is total and never errors:
every failure path yields none and the store is never mutated. -/
def get_optional_user_id (cred : Option RawToken) (now : Nat) (db : AuthDB) :
    Option Nat :=
  match cred with
  | none => none
  | some tok =>
    match decode_supabase_token_sync tok now with
    | none => none
    | some p =>
      if !Security.pyTruthy p.sub then none
      else
        match db.users.find? (fun u => u.supabaseUid == some (p.sub.getD "")) with
        | some u => some u.id
        | none =>
          if Security.pyTruthy p.email then
            match db.users.find? (fun u => u.email == p.email.getD "") with
            | some u => some u.id
            | none => none
          else none

/-- External verifier that confirms nothing, for counterexamples. -/
def rejectAll : RawToken → Bool := fun _ => false

/-- A decodable, unexpired token with both required claims. -/
def tokGood : RawToken :=
  some { sub := some "uid-1", email := some "a@x.com", exp := none,
         metaFullName := none, metaName := none }

/-- A decodable, unexpired token with a sub claim but no email claim; the
metadata name keeps the full_name computation from crashing. -/
def tokNoEmail : RawToken :=
  some { sub := some "uid-1", email := none, exp := none,
         metaFullName := some "Name", metaName := none }

/-- An empty local user store. -/
def emptyAuthDB : AuthDB := { users := [], nextId := 1 }

/-- A store holding one user linked to an external identity. -/
def exAuthDB : AuthDB :=
  { users := [{ id := 7, supabaseUid := some "uid-1",
                email := "a@x.com", fullName := "A" }],
    nextId := 8 }

end Auth

namespace Svc

/-- A row of the workspaces table used by services/workspace_service.py;
its type column is the kind, personal or team. -/
structure WorkspaceRow where
  id : String
  name : String
  slug : String
  type : String
  ownerId : String
  description : Option String
deriving DecidableEq

/-- A row of the workspace_members table. -/
structure MemberRow where
  workspaceId : String
  userId : String
  role : String
deriving DecidableEq

/-- The relational state the service operations touch. -/
structure SvcDB where
  workspaces : List WorkspaceRow
  members : List MemberRow
deriving DecidableEq

/-- SELECT on workspaces by primary key (first matching row). -/
def findWorkspace (db : SvcDB) (wid : String) : Option WorkspaceRow :=
  db.workspaces.find? (fun w => w.id == wid)

/-- SELECT on workspace_members by workspace and user (first matching row,
as fetchone returns). -/
def findMember (db : SvcDB) (wid uid : String) : Option MemberRow :=
  db.members.find? (fun m => m.workspaceId == wid && m.userId == uid)

/-- Embedding of WorkspaceService.get_workspace: the join of the workspace
row with the caller membership; yields the row and the caller role. -/
def get_workspace (db : SvcDB) (userId wid : String) :
    Option (WorkspaceRow × String) :=
  match findWorkspace db wid with
  | none => none
  | some w =>
    match findMember db wid userId with
    | none => none
    | some m => some (w, m.role)

/-- Embedding of WorkspaceService._verify_owner.  Raising
WorkspaceAccessError is modelled as an error value; on success the Python
method returns the role dictionary, modelled by the role string. -/
def verifyOwner (db : SvcDB) (userId wid : String) : Except String String :=
  match findMember db wid userId with
  | none => .error "Not a member of this workspace"
  | some m =>
    if m.role ≠ "owner" then .error "Only workspace owners can perform this action"
    else .ok m.role

/-- Embedding of WorkspaceService.delete_workspace of the services layer:
refuse unknown or inaccessible workspaces, refuse the personal kind before
any role comparison, require the owner role, then delete the row. -/
def delete_workspace (db : SvcDB) (userId wid : String) :
    Except String (Bool × SvcDB) :=
  match get_workspace db userId wid with
  | none => .error "Workspace not found"
  | some (w, role) =>
    if w.type == "personal" then .error "Cannot delete personal workspace"
    else if role ≠ "owner" then .error "Only workspace owners can delete workspaces"
    else
      let remaining := db.workspaces.filter (fun x => !(x.id == wid))
      .ok (true, { db with workspaces := remaining })

/-- Embedding of WorkspaceService.update_member_role: owner check, the two
guards, then an unconditional UPDATE of every matching row followed by a
success payload; the number of rows affected is never inspected. -/
def update_member_role (db : SvcDB) (userId wid memberId newRole : String) :
    Except String ((String × String) × SvcDB) :=
  match verifyOwner db userId wid with
  | .error e => .error e
  | .ok _ =>
    if memberId == userId then .error "Cannot change your own role"
    else if newRole == "owner" then .error "Use transfer_ownership to change workspace owner"
    else
      let updated :=
        db.members.map (fun m =>
          if m.workspaceId == wid && m.userId == memberId then { m with role := newRole }
          else m)
      .ok ((memberId, newRole), { db with members := updated })

/-- Embedding of WorkspaceService.remove_member of the services layer: owner
check, self guard, then an unconditional DELETE of every matching row and a
True result; rows affected never inspected. -/
def remove_member (db : SvcDB) (userId wid memberId : String) :
    Except String (Bool × SvcDB) :=
  match verifyOwner db userId wid with
  | .error e => .error e
  | .ok _ =>
    if memberId == userId then .error "Cannot remove yourself from workspace"
    else
      let remaining :=
        db.members.filter (fun m => !(m.workspaceId == wid && m.userId == memberId))
      .ok (true, { db with members := remaining })

/-- The role-mutating operations of the services layer, as a step alphabet
for operation sequences. -/
inductive SvcOp where
  | updateRole (callerId wid memberId newRole : String)
  | removeMember (callerId wid memberId : String)
deriving DecidableEq

/-- Run one operation: a raised WorkspaceAccessError leaves the state
untouched (the mutation is never executed), a success commits the new
state. -/
def applySvcOp (db : SvcDB) : SvcOp → SvcDB
  | .updateRole c w m r =>
    match update_member_role db c w m r with
    | .ok (_, db2) => db2
    | .error _ => db
  | .removeMember c w m =>
    match remove_member db c w m with
    | .ok (_, db2) => db2
    | .error _ => db

/-- Run a sequence of role-mutating operations. -/
def applySvcOps (db : SvcDB) (ops : List SvcOp) : SvcDB :=
  ops.foldl applySvcOp db

/-- State after a delete_workspace call, a raised error leaving the state
untouched. -/
def applyDeleteWorkspace (db : SvcDB) (userId wid : String) : SvcDB :=
  match delete_workspace db userId wid with
  | .ok (_, db2) => db2
  | .error _ => db

/-- Number of owner-role memberships of a workspace: the count the
last-owner invariant speaks about. -/
def ownerCount (db : SvcDB) (wid : String) : Nat :=
  (db.members.filter (fun m => m.workspaceId == wid && m.role == "owner")).length

/-- A personal workspace whose owner A is its sole owner-role member. -/
def personalDB : SvcDB :=
  { workspaces :=
      [ { id := "w1", name := "My Workspace", slug := "my-workspace-0a0a",
          type := "personal", ownerId := "A", description := none } ],
    members := [ { workspaceId := "w1", userId := "A", role := "owner" } ] }

/-- A team workspace whose owner A is its sole member; user B holds no
membership at all. -/
def teamDB : SvcDB :=
  { workspaces :=
      [ { id := "w1", name := "Sales", slug := "sales-0a0a",
          type := "team", ownerId := "A", description := none } ],
    members := [ { workspaceId := "w1", userId := "A", role := "owner" } ] }

end Svc

namespace Legacy

/-- A Workspace row of the legacy ORM model (database.py): no kind column,
a single owner_id, and a soft-delete flag. -/
structure LWorkspace where
  id : Nat
  name : String
  ownerId : Nat
  isActive : Bool
deriving DecidableEq

/-- A WorkspaceMember row of the legacy ORM model. -/
structure LMember where
  workspaceId : Nat
  userId : Nat
  role : String
deriving DecidableEq

/-- A WorkspaceInvitation row of the legacy ORM model. -/
structure LInvitation where
  workspaceId : Nat
  email : String
  role : String
  token : String
  isActive : Bool
  acceptedAt : Option Nat
  expiresAt : Nat
  invitedBy : Nat
deriving DecidableEq

/-- A User row, reduced to what the legacy service reads. -/
structure LUser where
  id : Nat
  email : String
deriving DecidableEq

/-- The legacy relational state, with the id the next workspace insert
receives. -/
structure LegacyDB where
  workspaces : List LWorkspace
  members : List LMember
  invitations : List LInvitation
  users : List LUser
  nextWorkspaceId : Nat
deriving DecidableEq

/-- Update the first element satisfying p, as an ORM mutation of the single
object a first() query returned. -/
def updateFirstP (p : α → Bool) (f : α → α) : List α → List α
  | [] => []
  | x :: xs => if p x then f x :: xs else x :: updateFirstP p f xs

/-- Delete the first element satisfying p, as an ORM delete of the single
object a first() query returned. -/
def eraseFirstP (p : α → Bool) : List α → List α
  | [] => []
  | x :: xs => if p x then xs else x :: eraseFirstP p xs

/-- Embedding of the legacy WorkspaceService.create_workspace: insert the
workspace, then insert the owner membership with the owner role. -/
def create_workspace (db : LegacyDB) (name : String) (ownerId : Nat) :
    LWorkspace × LegacyDB :=
  let w : LWorkspace :=
    { id := db.nextWorkspaceId, name := name, ownerId := ownerId, isActive := true }
  let m : LMember := { workspaceId := w.id, userId := ownerId, role := "owner" }
  (w, { db with workspaces := db.workspaces ++ [w],
                members := db.members ++ [m],
                nextWorkspaceId := db.nextWorkspaceId + 1 })

/-- Embedding of the legacy WorkspaceService.remove_member: caller must be
the workspace owner_id, must not target itself, and the first matching
membership row is deleted; False reports every refusal. -/
def remove_member (db : LegacyDB) (workspaceId userId memberId : Nat) :
    Bool × LegacyDB :=
  match db.workspaces.find? (fun w => w.id == workspaceId && w.ownerId == userId) with
  | none => (false, db)
  | some _ =>
    if memberId == userId then (false, db)
    else
      let pm := fun (m : LMember) => m.workspaceId == workspaceId && m.userId == memberId
      match db.members.find? pm with
      | some _ => (true, { db with members := eraseFirstP pm db.members })
      | none => (false, db)

/-- The pending-invitation predicate accept_invitation queries: matching
token, still active, not yet accepted, not yet expired. -/
def pendingInvP (tok : String) (now : Nat) (i : LInvitation) : Bool :=
  i.token == tok && i.isActive && i.acceptedAt == none && decide (now < i.expiresAt)

/-- Embedding of the legacy WorkspaceService.accept_invitation.  Note the
already-a-member path returns the existing row before the invitation is
marked accepted, so only the path inserting a new membership deactivates
the invitation. -/
def accept_invitation (db : LegacyDB) (tok : String) (userId now : Nat) :
    Option LMember × LegacyDB :=
  match db.invitations.find? (pendingInvP tok now) with
  | none => (none, db)
  | some inv =>
    match db.users.find? (fun u => u.id == userId) with
    | none => (none, db)
    | some user =>
      if user.email ≠ inv.email then (none, db)
      else
        match db.members.find? (fun m => m.workspaceId == inv.workspaceId && m.userId == userId) with
        | some existing => (some existing, db)
        | none =>
          let nm : LMember :=
            { workspaceId := inv.workspaceId, userId := userId, role := inv.role }
          let consumed :=
            updateFirstP (pendingInvP tok now)
              (fun i => { i with isActive := false, acceptedAt := some now })
              db.invitations
          (some nm, { db with members := db.members ++ [nm], invitations := consumed })

/-- The legacy operations relevant to the last-owner invariant, as a step
alphabet: workspace creation and member removal (the legacy service has no
role-change operation). -/
inductive LegacyOp where
  | createWorkspace (name : String) (ownerId : Nat)
  | removeMember (workspaceId userId memberId : Nat)
deriving DecidableEq

/-- Run one legacy operation, keeping only the successor state. -/
def applyLegacyOp (db : LegacyDB) : LegacyOp → LegacyDB
  | .createWorkspace n o => (create_workspace db n o).2
  | .removeMember w u m => (remove_member db w u m).2

/-- Run a sequence of legacy operations. -/
def applyLegacyOps (db : LegacyDB) (ops : List LegacyOp) : LegacyDB :=
  ops.foldl applyLegacyOp db

/-- Number of owner-role memberships of a legacy workspace. -/
def legacyOwnerCount (db : LegacyDB) (wid : Nat) : Nat :=
  (db.members.filter (fun m => m.workspaceId == wid && m.role == "owner")).length

/-- Number of membership rows of a (workspace, user) pair; the model of
the at-most-one-membership-per-pair uniqueness constraint. -/
def pairCount (db : LegacyDB) (wid uid : Nat) : Nat :=
  (db.members.filter (fun m => m.workspaceId == wid && m.userId == uid)).length

/-- Number of invitation rows carrying a given token; the model of the
unique-token column constraint. -/
def tokenCount (db : LegacyDB) (tok : String) : Nat :=
  (db.invitations.filter (fun i => i.token == tok)).length

/-- Structural well-formedness the legacy store keeps: workspace ids are
below the insertion counter and unique, and the owner_id of every workspace
holds an owner-role membership in it.  create_workspace establishes it for
every workspace it inserts, and it pins the caller-side owner membership
remove_member can never delete. -/
def legacyInv (db : LegacyDB) : Prop :=
  (∀ w ∈ db.workspaces, w.id < db.nextWorkspaceId) ∧
  (∀ w ∈ db.workspaces, ∀ w2 ∈ db.workspaces, w.id = w2.id → w = w2) ∧
  (∀ w ∈ db.workspaces, ∃ m ∈ db.members,
    m.workspaceId = w.id ∧ m.userId = w.ownerId ∧ m.role = "owner")

instance (db : LegacyDB) : Decidable (legacyInv db) := by
  unfold legacyInv
  exact inferInstance

/-- A legacy state with a pending invitation for b@x.com to workspace 1,
where user 5 (that email) is not yet a member. -/
def freshInviteDB : LegacyDB :=
  { workspaces := [ { id := 1, name := "W", ownerId := 2, isActive := true } ],
    members := [ { workspaceId := 1, userId := 2, role := "owner" } ],
    invitations :=
      [ { workspaceId := 1, email := "b@x.com", role := "editor", token := "tok1",
          isActive := true, acceptedAt := none, expiresAt := 100, invitedBy := 2 } ],
    users := [ { id := 2, email := "o@x.com" }, { id := 5, email := "b@x.com" } ],
    nextWorkspaceId := 2 }

/-- The same state with user 5 already holding a membership in workspace 1,
while the invitation for it is still pending. -/
def memberInviteDB : LegacyDB :=
  { freshInviteDB with
      members := freshInviteDB.members ++ [ { workspaceId := 1, userId := 5, role := "viewer" } ] }

/-- The empty legacy store. -/
def emptyLegacyDB : LegacyDB :=
  { workspaces := [], members := [], invitations := [], users := [], nextWorkspaceId := 0 }

end Legacy

theorem pyStrEmpty_eq (s : String) (h : pyStrEmpty s = true) : s = "" := by
  cases s with
  | mk data =>
    cases data with
    | nil => rfl
    | cons c cs => simp [pyStrEmpty, String.toList] at h

/-- C5: a caller whose scope owns zero rows of a tenant table carrying the
ownership column is refused by validate_table_access with a raised error,
not handed an empty result, while a caller owning at least one row is
granted access with a True result. -/
theorem c5_zero_owned_rows_denied (db : Security.SqlDB) (tname : String)
    (uid : Nat) (t : Security.DBTable)
    (hf : Security.findTable db tname = some t)
    (hs1 : tname ∉ Security.SYSTEM_TABLES)
    (hs2 : strStartsWith tname "_" = false)
    (hcol : "user_id" ∈ t.columns) :
    (Security.ownedRowCount t uid = 0 →
      Security.validate_table_access db tname uid =
        .error ("Access denied: You have no data in table " ++ tname))
    ∧ (0 < Security.ownedRowCount t uid →
      Security.validate_table_access db tname uid = .ok true) := by
  constructor
  · intro h0
    unfold Security.validate_table_access
    rw [hf]
    simp [hs1, hs2, hcol, h0]
  · intro hpos
    have hne : Security.ownedRowCount t uid ≠ 0 := by omega
    unfold Security.validate_table_access
    rw [hf]
    simp [hs1, hs2, hcol, hne]

/-- Witness for C5 at the concrete store exDB: user 8 owns no row of the
sales table and is refused, user 7 owns rows and is granted. -/
theorem c5_zero_owned_rows_denied_witness :
    Security.validate_table_access Security.exDB "sales" 8 =
      .error ("Access denied: You have no data in table " ++ "sales")
    ∧ Security.validate_table_access Security.exDB "sales" 7 = .ok true :=
  ⟨(c5_zero_owned_rows_denied Security.exDB "sales" 8
      ⟨"sales", ["user_id", "amount"], [7, 7, 9]⟩
      (by decide) (by decide) (by decide) (by decide)).1 (by decide),
   (c5_zero_owned_rows_denied Security.exDB "sales" 7
      ⟨"sales", ["user_id", "amount"], [7, 7, 9]⟩
      (by decide) (by decide) (by decide) (by decide)).2 (by decide)⟩

/-- C8: on a table without the user_id ownership column,
get_user_filtered_query applies no tenant constraint at all — the base
query comes back unchanged, and the empty string stands in when no base
query was given. -/
theorem c8_no_ownership_column_unchanged (db : Security.SqlDB)
    (tname : String) (uid : Nat) (base : Option String) (t : Security.DBTable)
    (hf : Security.findTable db tname = some t)
    (hcol : "user_id" ∉ t.columns) :
    Security.get_user_filtered_query db tname uid base = base.getD "" := by
  unfold Security.get_user_filtered_query
  rw [hf]
  simp [hcol]
  cases base with
  | none => rfl
  | some b =>
    by_cases hb : pyStrEmpty b
    · have hb0 : b = "" := pyStrEmpty_eq b hb
      subst hb0
      simp [hb]
    · simp [hb]

/-- Witness for C8: the lookup_codes table has no user_id column, so a base
query passes through untouched and an absent base query yields the empty
string. -/
theorem c8_no_ownership_column_unchanged_witness :
    Security.get_user_filtered_query Security.exDB "lookup_codes" 42
        (some "SELECT code FROM lookup_codes") =
      (some "SELECT code FROM lookup_codes").getD ""
    ∧ Security.get_user_filtered_query Security.exDB "lookup_codes" 42 none =
        (Option.getD none "") :=
  ⟨c8_no_ownership_column_unchanged Security.exDB "lookup_codes" 42
      (some "SELECT code FROM lookup_codes")
      ⟨"lookup_codes", ["code", "label"], []⟩ (by decide) (by decide),
   c8_no_ownership_column_unchanged Security.exDB "lookup_codes" 42 none
      ⟨"lookup_codes", ["code", "label"], []⟩ (by decide) (by decide)⟩

/-- C4 counterexample: the constrained statement text emitted by
get_user_filtered_query is not parameter-bound — it embeds the scope
identifier literally, so the text differs between two callers, which a
bound-parameter statement never does. -/
theorem c4_counterexample :
    Security.get_user_filtered_query Security.exDB "sales" 1 none = "WHERE user_id = 1"
    ∧ Security.get_user_filtered_query Security.exDB "sales" 2 none = "WHERE user_id = 2"
    ∧ Security.get_user_filtered_query Security.exDB "sales" 1 none ≠
        Security.get_user_filtered_query Security.exDB "sales" 2 none :=
  ⟨rfl, rfl, by decide⟩

/-- C4 amended: on a table carrying the ownership column,
get_user_filtered_query builds the equality constraint by formatting the
caller scope identifier directly into the statement text — the emitted
clause is the literal WHERE user_id = uid — rather than binding it as a
parameter. -/
theorem c4_amended_filter_is_interpolated (db : Security.SqlDB)
    (tname : String) (uid : Nat) (t : Security.DBTable)
    (hf : Security.findTable db tname = some t)
    (hcol : "user_id" ∈ t.columns) :
    Security.get_user_filtered_query db tname uid none =
      "WHERE user_id = " ++ toString uid := by
  unfold Security.get_user_filtered_query
  rw [hf]
  simp [hcol]

/-- Witness for the amended C4 on the concrete store. -/
theorem c4_amended_filter_is_interpolated_witness :
    Security.get_user_filtered_query Security.exDB "sales" 42 none =
      "WHERE user_id = " ++ toString 42 :=
  c4_amended_filter_is_interpolated Security.exDB "sales" 42
    ⟨"sales", ["user_id", "amount"], [7, 7, 9]⟩ (by decide) (by decide)

/-- C10 counterexample: the empty string contains no disallowed character
and is no keyword, yet sanitize_sql_identifier raises on it; and the string
of an x followed by a newline contains a character outside the allowed set,
yet is accepted and returned (the Python anchor also matches just before a
single trailing newline). -/
theorem c10_counterexample :
    Security.sanitize_sql_identifier "" =
      .error "Invalid identifier: only alphanumeric, underscore, and hyphen allowed"
    ∧ "".toList.all Security.isAllowedIdentChar = true
    ∧ pyUpper "" ∉ Security.SQL_KEYWORDS
    ∧ Security.sanitize_sql_identifier "x\n" = .ok "x\n"
    ∧ Security.isAllowedIdentChar '\n' = false
    ∧ '\n' ∈ "x\n".toList := by
  decide

/-- C10 amended: sanitize_sql_identifier accepts exactly the strings
matching its anchored pattern (one or more allowed characters, the anchor
also matching before a single trailing newline, so the empty string is
refused and allowed-characters-plus-newline passes) whose uppercase form is
no reserved keyword; whatever it accepts it returns unchanged, hence
applying it twice equals applying it once. -/
theorem c10_amended_identity_on_accepted (s : String) :
    ((∃ u, Security.sanitize_sql_identifier s = .ok u) ↔
      Security.matchesIdentPattern s = true ∧
        pyUpper s ∉ Security.SQL_KEYWORDS)
    ∧ ∀ t, Security.sanitize_sql_identifier s = .ok t →
        t = s ∧ Security.sanitize_sql_identifier t = .ok t := by
  have main : ∀ t, Security.sanitize_sql_identifier s = .ok t → t = s := by
    intro t h
    unfold Security.sanitize_sql_identifier at h
    by_cases h1 : Security.matchesIdentPattern s <;> simp [h1] at h
    by_cases h2 : pyUpper s ∈ Security.SQL_KEYWORDS <;> simp [h2] at h
    exact h.symm
  refine ⟨?_, fun t h => by have hts := main t h; subst hts; exact ⟨rfl, h⟩⟩
  by_cases h1 : Security.matchesIdentPattern s
  · by_cases h2 : pyUpper s ∈ Security.SQL_KEYWORDS
    · unfold Security.sanitize_sql_identifier
      simp [h1, h2]
    · unfold Security.sanitize_sql_identifier
      simp [h1, h2]
  · unfold Security.sanitize_sql_identifier
    simp [h1]

/-- Witness for the amended C10 at a concrete accepted identifier. -/
theorem c10_amended_identity_on_accepted_witness :
    "tbl-1" = "tbl-1"
    ∧ Security.sanitize_sql_identifier "tbl-1" = .ok "tbl-1" :=
  (c10_amended_identity_on_accepted "tbl-1").2 "tbl-1" (by decide)

/-- C3 counterexample: under an external verifier that confirms nothing,
get_current_user_id still accepts a decodable unexpired token (it never
makes the verification call that verify_supabase_token embodies), and its
rejections are not uniform — a malformed token and a token missing the
email claim produce two different error details. -/
theorem c3_counterexample :
    (∃ uid db2, Auth.get_current_user_id Auth.rejectAll Auth.tokGood 0
        Auth.emptyAuthDB = .ok (uid, db2))
    ∧ Auth.verify_supabase_token Auth.rejectAll Auth.tokGood 0 = none
    ∧ Auth.get_current_user_id Auth.rejectAll none 0 Auth.emptyAuthDB =
        .error (.unauthenticated "Invalid or expired token")
    ∧ Auth.get_current_user_id Auth.rejectAll Auth.tokNoEmail 0 Auth.emptyAuthDB =
        .error (.unauthenticated "Token missing required claims")
    ∧ Auth.AuthFailure.unauthenticated "Invalid or expired token" ≠
        Auth.AuthFailure.unauthenticated "Token missing required claims" :=
  ⟨⟨1, _, rfl⟩, rfl, rfl, rfl, by decide⟩

/-- C3 amended: get_current_user_id decides identically under every
behavior of the external verifier, because it never consults it; every
undecodable or expired credential is rejected with the detail string
Invalid or expired token, while a decodable credential missing the email
claim is rejected with the different detail string Token missing required
claims, so the rejection reveals which validation stage failed. -/
theorem c3_amended_no_external_call (v v2 : Auth.RawToken → Bool)
    (tok : Auth.RawToken) (now : Nat) (db : Auth.AuthDB) :
    Auth.get_current_user_id v tok now db = Auth.get_current_user_id v2 tok now db
    ∧ (Auth.decode_supabase_token_sync tok now = none →
        Auth.get_current_user_id v tok now db =
          .error (.unauthenticated "Invalid or expired token"))
    ∧ (∀ p, Auth.decode_supabase_token_sync tok now = some p →
        Security.pyTruthy p.email = false →
        (Security.pyTruthy p.metaFullName || Security.pyTruthy p.metaName) = true →
        Auth.get_current_user_id v tok now db =
          .error (.unauthenticated "Token missing required claims")) := by
  refine ⟨rfl, fun h => ?_, fun p hp hem hname => ?_⟩
  · unfold Auth.get_current_user_id
    rw [h]
  · have hopt : ∀ o : Option String, Security.pyTruthy o = true → ∃ s, o = some s := by
      intro o ho
      cases o with
      | none => simp [Security.pyTruthy] at ho
      | some s => exact ⟨s, rfl⟩
    have hf : ∃ f, Auth.fullNameOf p = some f := by
      by_cases h1 : Security.pyTruthy p.metaFullName
      · obtain ⟨s, hs⟩ := hopt _ h1
        refine ⟨s, ?_⟩
        unfold Auth.fullNameOf
        rw [if_pos h1]
        exact hs
      · have h2 : Security.pyTruthy p.metaName = true := by
          rcases Bool.or_eq_true_iff.mp hname with h | h
          · exact absurd h h1
          · exact h
        obtain ⟨s, hs⟩ := hopt _ h2
        refine ⟨s, ?_⟩
        unfold Auth.fullNameOf
        rw [if_neg h1, if_pos h2]
        exact hs
    obtain ⟨f, hf⟩ := hf
    unfold Auth.get_current_user_id
    simp [hp, hf, hem]

/-- Witness for the amended C3 at a concrete undecodable credential. -/
theorem c3_amended_no_external_call_witness :
    Auth.get_current_user_id Auth.rejectAll none 0 Auth.emptyAuthDB =
      .error (.unauthenticated "Invalid or expired token") :=
  (c3_amended_no_external_call Auth.rejectAll (fun _ => true) none 0
    Auth.emptyAuthDB).2.1 rfl

/-- C9: get_optional_user_id is total on failures — an absent credential
and an undecodable or expired token yield none rather than an error — and
it yields an id only when the decoded claims resolve, by external uid or
by email, to a user present in the local store. -/
theorem c9_optional_resolution (cred : Option Auth.RawToken) (now : Nat)
    (db : Auth.AuthDB) :
    (cred = none → Auth.get_optional_user_id cred now db = none)
    ∧ (∀ tok, cred = some tok → Auth.decode_supabase_token_sync tok now = none →
        Auth.get_optional_user_id cred now db = none)
    ∧ (∀ uid, Auth.get_optional_user_id cred now db = some uid →
        ∃ tok p, cred = some tok
          ∧ Auth.decode_supabase_token_sync tok now = some p
          ∧ ∃ u, u ∈ db.users ∧ u.id = uid
              ∧ (u.supabaseUid = some (p.sub.getD "")
                 ∨ (Security.pyTruthy p.email = true ∧ u.email = p.email.getD ""))) := by
  refine ⟨fun h => by rw [h]; rfl, fun tok h hd => ?_, fun uid h => ?_⟩
  · subst h
    simp [Auth.get_optional_user_id, hd]
  · cases cred with
    | none => simp [Auth.get_optional_user_id] at h
    | some tok =>
      simp only [Auth.get_optional_user_id] at h
      cases hd : Auth.decode_supabase_token_sync tok now with
      | none => rw [hd] at h; simp at h
      | some p =>
        rw [hd] at h
        refine ⟨tok, p, rfl, hd, ?_⟩
        by_cases hs : Security.pyTruthy p.sub
        · simp only [hs, Bool.not_true, Bool.false_eq_true, if_false] at h
          cases hfind : db.users.find? (fun u => u.supabaseUid == some (p.sub.getD "")) with
          | some u =>
            rw [hfind] at h
            have hu : u.id = uid := Option.some.inj h
            have hmem := List.mem_of_find?_eq_some hfind
            have hpred := List.find?_some hfind
            refine ⟨u, hmem, hu, Or.inl ?_⟩
            simpa using hpred
          | none =>
            rw [hfind] at h
            by_cases he : Security.pyTruthy p.email
            · simp only [he, if_true] at h
              cases hfind2 : db.users.find? (fun u => u.email == p.email.getD "") with
              | some u =>
                rw [hfind2] at h
                have hu : u.id = uid := Option.some.inj h
                have hmem := List.mem_of_find?_eq_some hfind2
                have hpred := List.find?_some hfind2
                refine ⟨u, hmem, hu, Or.inr ⟨he, ?_⟩⟩
                simpa using hpred
              | none => rw [hfind2] at h; simp at h
            · simp [he] at h
        · simp [hs] at h

/-- Witness for C9: the linked user of the concrete store resolves by its
external uid. -/
theorem c9_optional_resolution_witness :
    ∃ tok p, (some Auth.tokGood : Option Auth.RawToken) = some tok
      ∧ Auth.decode_supabase_token_sync tok 0 = some p
      ∧ ∃ u, u ∈ Auth.exAuthDB.users ∧ u.id = 7
          ∧ (u.supabaseUid = some (p.sub.getD "")
             ∨ (Security.pyTruthy p.email = true ∧ u.email = p.email.getD "")) :=
  (c9_optional_resolution (some Auth.tokGood) 0 Auth.exAuthDB).2.2 7 rfl

theorem svc_verifyOwner_ok (db : Svc.SvcDB) (uid wid r : String)
    (h : Svc.verifyOwner db uid wid = .ok r) :
    ∃ cm, Svc.findMember db wid uid = some cm ∧ cm.role = "owner" := by
  unfold Svc.verifyOwner at h
  cases hm : Svc.findMember db wid uid with
  | none => rw [hm] at h; simp at h
  | some m =>
    rw [hm] at h
    by_cases hr : m.role = "owner"
    · exact ⟨m, rfl, hr⟩
    · simp [hr] at h

theorem svc_findMember_props (db : Svc.SvcDB) (wid uid : String) (m : Svc.MemberRow)
    (h : Svc.findMember db wid uid = some m) :
    m ∈ db.members ∧ m.workspaceId = wid ∧ m.userId = uid := by
  refine ⟨List.mem_of_find?_eq_some h, ?_, ?_⟩ <;>
  · have := List.find?_some h
    simp only [Bool.and_eq_true, beq_iff_eq] at this
    tauto

theorem svc_one_le_ownerCount_of_mem (db : Svc.SvcDB) (wid : String)
    (m : Svc.MemberRow) (hm : m ∈ db.members) (hw : m.workspaceId = wid)
    (hr : m.role = "owner") : 1 ≤ Svc.ownerCount db wid := by
  have : m ∈ db.members.filter (fun x => x.workspaceId == wid && x.role == "owner") :=
    List.mem_filter.mpr ⟨hm, by simp [hw, hr]⟩
  exact List.length_pos_of_mem this

theorem svc_exists_owner (db : Svc.SvcDB) (wid : String)
    (h : 1 ≤ Svc.ownerCount db wid) :
    ∃ m ∈ db.members, m.workspaceId = wid ∧ m.role = "owner" := by
  obtain ⟨x, hx⟩ := List.exists_mem_of_length_pos h
  have hx2 := List.mem_filter.mp hx
  have hp := hx2.2
  simp only [Bool.and_eq_true, beq_iff_eq] at hp
  exact ⟨x, hx2.1, hp.1, hp.2⟩

theorem svc_update_member_role_ok (db : Svc.SvcDB) (c w m r : String)
    (pay : String × String) (db2 : Svc.SvcDB)
    (h : Svc.update_member_role db c w m r = .ok (pay, db2)) :
    (∃ cm, Svc.findMember db w c = some cm ∧ cm.role = "owner")
    ∧ (m == c) = false
    ∧ db2 = { db with members := db.members.map (fun x =>
        if x.workspaceId == w && x.userId == m then { x with role := r } else x) } := by
  unfold Svc.update_member_role at h
  cases hv : Svc.verifyOwner db c w with
  | error e => rw [hv] at h; simp at h
  | ok rr =>
    rw [hv] at h
    by_cases h1 : (m == c) = true
    · simp [h1] at h
    · by_cases h2 : (r == "owner") = true
      · simp [h1, h2] at h
      · simp only [h1, h2, Bool.false_eq_true, if_false, Except.ok.injEq,
          Prod.mk.injEq] at h
        refine ⟨svc_verifyOwner_ok db c w rr hv, by simp [h1], h.2.symm⟩

theorem svc_remove_member_ok (db : Svc.SvcDB) (c w m : String)
    (b : Bool) (db2 : Svc.SvcDB)
    (h : Svc.remove_member db c w m = .ok (b, db2)) :
    (∃ cm, Svc.findMember db w c = some cm ∧ cm.role = "owner")
    ∧ (m == c) = false
    ∧ db2 = { db with members := db.members.filter (fun x =>
        !(x.workspaceId == w && x.userId == m)) } := by
  unfold Svc.remove_member at h
  cases hv : Svc.verifyOwner db c w with
  | error e => rw [hv] at h; simp at h
  | ok rr =>
    rw [hv] at h
    by_cases h1 : (m == c) = true
    · simp [h1] at h
    · simp only [h1, Bool.false_eq_true, if_false, Except.ok.injEq,
        Prod.mk.injEq] at h
      refine ⟨svc_verifyOwner_ok db c w rr hv, by simp [h1], h.2.symm⟩

theorem svc_userId_beq_false (cm : Svc.MemberRow) (c m : String)
    (hcu : cm.userId = c) (hmc : (m == c) = false) : (cm.userId == m) = false := by
  rw [hcu]
  cases hcm2 : (c == m) with
  | false => rfl
  | true =>
    rw [beq_iff_eq] at hcm2
    subst hcm2
    simp at hmc

theorem svc_wsId_beq_false (x : Svc.MemberRow) (wid w : String)
    (hxw : x.workspaceId = wid) (hww : wid ≠ w) : (x.workspaceId == w) = false := by
  rw [hxw]
  cases hite : (wid == w) with
  | false => rfl
  | true => rw [beq_iff_eq] at hite; exact absurd hite hww

theorem svc_applySvcOp_ownerCount (db : Svc.SvcDB) (wid : String) (op : Svc.SvcOp)
    (h : 1 ≤ Svc.ownerCount db wid) : 1 ≤ Svc.ownerCount (Svc.applySvcOp db op) wid := by
  cases op with
  | updateRole c w m r =>
    cases hu : Svc.update_member_role db c w m r with
    | error e => simpa only [Svc.applySvcOp, hu] using h
    | ok p =>
      obtain ⟨pay, db2⟩ := p
      simp only [Svc.applySvcOp, hu]
      obtain ⟨⟨cm, hcm, hrole⟩, hmc, hdb2⟩ := svc_update_member_role_ok db c w m r pay db2 hu
      obtain ⟨hmem, hcw, hcu⟩ := svc_findMember_props db w c cm hcm
      subst hdb2
      by_cases hww : wid = w
      · subst hww
        have himg : (if cm.workspaceId == wid && cm.userId == m
            then { cm with role := r } else cm) = cm := by
          simp [svc_userId_beq_false cm c m hcu hmc]
        have hmm : cm ∈ db.members.map (fun x =>
            if x.workspaceId == wid && x.userId == m then { x with role := r } else x) :=
          List.mem_map.mpr ⟨cm, hmem, himg⟩
        exact svc_one_le_ownerCount_of_mem _ wid cm hmm hcw hrole
      · obtain ⟨x, hxmem, hxw, hxr⟩ := svc_exists_owner db wid h
        have himg : (if x.workspaceId == w && x.userId == m
            then { x with role := r } else x) = x := by
          simp [svc_wsId_beq_false x wid w hxw hww]
        have hmm : x ∈ db.members.map (fun y =>
            if y.workspaceId == w && y.userId == m then { y with role := r } else y) :=
          List.mem_map.mpr ⟨x, hxmem, himg⟩
        exact svc_one_le_ownerCount_of_mem _ wid x hmm hxw hxr
  | removeMember c w m =>
    cases hu : Svc.remove_member db c w m with
    | error e => simpa only [Svc.applySvcOp, hu] using h
    | ok p =>
      obtain ⟨b, db2⟩ := p
      simp only [Svc.applySvcOp, hu]
      obtain ⟨⟨cm, hcm, hrole⟩, hmc, hdb2⟩ := svc_remove_member_ok db c w m b db2 hu
      obtain ⟨hmem, hcw, hcu⟩ := svc_findMember_props db w c cm hcm
      subst hdb2
      by_cases hww : wid = w
      · subst hww
        have hkeep : (!(cm.workspaceId == wid && cm.userId == m)) = true := by
          simp [svc_userId_beq_false cm c m hcu hmc]
        have hmm : cm ∈ db.members.filter (fun x =>
            !(x.workspaceId == wid && x.userId == m)) :=
          List.mem_filter.mpr ⟨hmem, hkeep⟩
        exact svc_one_le_ownerCount_of_mem _ wid cm hmm hcw hrole
      · obtain ⟨x, hxmem, hxw, hxr⟩ := svc_exists_owner db wid h
        have hkeep : (!(x.workspaceId == w && x.userId == m)) = true := by
          simp [svc_wsId_beq_false x wid w hxw hww]
        have hmm : x ∈ db.members.filter (fun y =>
            !(y.workspaceId == w && y.userId == m)) :=
          List.mem_filter.mpr ⟨hxmem, hkeep⟩
        exact svc_one_le_ownerCount_of_mem _ wid x hmm hxw hxr

theorem svc_applySvcOps_ownerCount (ops : List Svc.SvcOp) (db : Svc.SvcDB)
    (wid : String) (h : 1 ≤ Svc.ownerCount db wid) :
    1 ≤ Svc.ownerCount (Svc.applySvcOps db ops) wid := by
  induction ops generalizing db with
  | nil => exact h
  | cons op rest ih => exact ih _ (svc_applySvcOp_ownerCount db wid op h)

theorem legacy_mem_eraseFirstP {α : Type} (p : α → Bool) (l : List α) (a : α)
    (ha : a ∈ l) (hp : p a = false) : a ∈ Legacy.eraseFirstP p l := by
  induction l with
  | nil => cases ha
  | cons x xs ih =>
    by_cases hx : p x = true
    · simp only [Legacy.eraseFirstP, hx, if_true]
      rcases List.mem_cons.mp ha with heq | hmem
      · subst heq; rw [hp] at hx; cases hx
      · exact hmem
    · simp only [Legacy.eraseFirstP, hx, if_false]
      rcases List.mem_cons.mp ha with heq | hmem
      · subst heq; exact List.mem_cons_self a _
      · exact List.mem_cons_of_mem x (ih hmem)

theorem legacy_remove_member_inv (db : Legacy.LegacyDB) (wid uid mid : Nat)
    (h : Legacy.legacyInv db) :
    Legacy.legacyInv (Legacy.remove_member db wid uid mid).2 := by
  unfold Legacy.remove_member
  cases hw : db.workspaces.find? (fun w => w.id == wid && w.ownerId == uid) with
  | none => exact h
  | some wf =>
    by_cases hself : (mid == uid) = true
    · simp only [hself, if_true]
      exact h
    · simp only [hself, Bool.false_eq_true, if_false]
      cases hm : db.members.find? (fun m => m.workspaceId == wid && m.userId == mid) with
      | none => exact h
      | some found =>
        obtain ⟨h1, h2, h3⟩ := h
        refine ⟨h1, h2, ?_⟩
        intro w hwmem
        obtain ⟨m, hmmem, hmw, hmu, hmr⟩ := h3 w hwmem
        have hwf := List.find?_some hw
        simp only [Bool.and_eq_true, beq_iff_eq] at hwf
        have hwfmem := List.mem_of_find?_eq_some hw
        have hmidne : mid ≠ uid := by
          intro hcontra
          subst hcontra
          simp at hself
        have hkeep : (m.workspaceId == wid && m.userId == mid) = false := by
          by_cases hww : w.id = wid
          · have hweq : w = wf := h2 w hwmem wf hwfmem (by rw [hww, hwf.1])
            have : m.userId = uid := by rw [hmu, hweq, hwf.2]
            rw [this]
            cases hb : (uid == mid) with
            | false => simp
            | true =>
              rw [beq_iff_eq] at hb
              exact absurd hb.symm hmidne
          · have : (m.workspaceId == wid) = false := by
              rw [hmw]
              cases hb : (w.id == wid) with
              | false => rfl
              | true => rw [beq_iff_eq] at hb; exact absurd hb hww
            simp [this]
        exact ⟨m, legacy_mem_eraseFirstP _ db.members m hmmem hkeep, hmw, hmu, hmr⟩

theorem legacy_create_workspace_inv (db : Legacy.LegacyDB) (n : String) (o : Nat)
    (h : Legacy.legacyInv db) :
    Legacy.legacyInv (Legacy.create_workspace db n o).2 := by
  obtain ⟨h1, h2, h3⟩ := h
  unfold Legacy.create_workspace
  refine ⟨?_, ?_, ?_⟩
  · intro w hw
    rcases List.mem_append.mp hw with hold | hnew
    · have := h1 w hold
      simp only []
      omega
    · simp only [List.mem_singleton] at hnew
      subst hnew
      simp only []
      omega
  · intro w hw w2 hw2 heq
    rcases List.mem_append.mp hw with hold | hnew <;>
      rcases List.mem_append.mp hw2 with hold2 | hnew2
    · exact h2 w hold w2 hold2 heq
    · simp only [List.mem_singleton] at hnew2
      subst hnew2
      have := h1 w hold
      simp only [] at heq
      omega
    · simp only [List.mem_singleton] at hnew
      subst hnew
      have := h1 w2 hold2
      simp only [] at heq
      omega
    · simp only [List.mem_singleton] at hnew hnew2
      rw [hnew, hnew2]
  · intro w hw
    rcases List.mem_append.mp hw with hold | hnew
    · obtain ⟨m, hmmem, hmw, hmu, hmr⟩ := h3 w hold
      exact ⟨m, List.mem_append.mpr (Or.inl hmmem), hmw, hmu, hmr⟩
    · simp only [List.mem_singleton] at hnew
      subst hnew
      refine ⟨⟨db.nextWorkspaceId, o, "owner"⟩,
        List.mem_append.mpr (Or.inr (List.mem_singleton.mpr rfl)), rfl, rfl, rfl⟩

theorem legacy_applyLegacyOp_inv (db : Legacy.LegacyDB) (op : Legacy.LegacyOp)
    (h : Legacy.legacyInv db) : Legacy.legacyInv (Legacy.applyLegacyOp db op) := by
  cases op with
  | createWorkspace n o => exact legacy_create_workspace_inv db n o h
  | removeMember w u m => exact legacy_remove_member_inv db w u m h

theorem legacy_applyLegacyOps_inv (ops : List Legacy.LegacyOp)
    (db : Legacy.LegacyDB) (h : Legacy.legacyInv db) :
    Legacy.legacyInv (Legacy.applyLegacyOps db ops) := by
  induction ops generalizing db with
  | nil => exact h
  | cons op rest ih => exact ih _ (legacy_applyLegacyOp_inv db op h)

theorem legacy_inv_ownerCount (db : Legacy.LegacyDB) (h : Legacy.legacyInv db)
    (w : Legacy.LWorkspace) (hw : w ∈ db.workspaces) :
    1 ≤ Legacy.legacyOwnerCount db w.id := by
  obtain ⟨m, hmmem, hmw, hmu, hmr⟩ := h.2.2 w hw
  have : m ∈ db.members.filter (fun x => x.workspaceId == w.id && x.role == "owner") :=
    List.mem_filter.mpr ⟨hmmem, by simp [hmw, hmr]⟩
  exact List.length_pos_of_mem this

/-- C1: last-owner invariant.  For the services layer, any sequence of
update_member_role and remove_member calls keeps the owner-role membership
count of every workspace at or above one (a successful call is made by an
owner who can target neither itself nor the owner role, so the caller
membership survives; a refused call changes nothing).  For the legacy
layer, which has no role-change operation, sequences of create_workspace
and remove_member preserve the structural invariant that every workspace
owner_id holds an owner membership, so every workspace keeps at least one
owner-role membership. -/
theorem c1_last_owner_invariant (db : Svc.SvcDB) (wid : String)
    (ops : List Svc.SvcOp) (ldb : Legacy.LegacyDB) (lops : List Legacy.LegacyOp)
    (h : 1 ≤ Svc.ownerCount db wid) (hinv : Legacy.legacyInv ldb) :
    1 ≤ Svc.ownerCount (Svc.applySvcOps db ops) wid
    ∧ ∀ w ∈ (Legacy.applyLegacyOps ldb lops).workspaces,
        1 ≤ Legacy.legacyOwnerCount (Legacy.applyLegacyOps ldb lops) w.id := by
  refine ⟨svc_applySvcOps_ownerCount ops db wid h, fun w hw => ?_⟩
  exact legacy_inv_ownerCount _ (legacy_applyLegacyOps_inv lops ldb hinv) w hw

/-- Witness for C1: a concrete demote-then-remove sequence on the team
workspace, and a concrete create-then-remove sequence on the empty legacy
store. -/
theorem c1_last_owner_invariant_witness :
    1 ≤ Svc.ownerCount (Svc.applySvcOps Svc.teamDB
        [Svc.SvcOp.updateRole "A" "w1" "B" "viewer",
         Svc.SvcOp.removeMember "A" "w1" "B"]) "w1"
    ∧ ∀ w ∈ (Legacy.applyLegacyOps Legacy.emptyLegacyDB
        [Legacy.LegacyOp.createWorkspace "W" 3,
         Legacy.LegacyOp.removeMember 0 3 1]).workspaces,
        1 ≤ Legacy.legacyOwnerCount (Legacy.applyLegacyOps Legacy.emptyLegacyDB
          [Legacy.LegacyOp.createWorkspace "W" 3,
           Legacy.LegacyOp.removeMember 0 3 1]) w.id :=
  c1_last_owner_invariant Svc.teamDB "w1"
    [Svc.SvcOp.updateRole "A" "w1" "B" "viewer",
     Svc.SvcOp.removeMember "A" "w1" "B"]
    Legacy.emptyLegacyDB
    [Legacy.LegacyOp.createWorkspace "W" 3,
     Legacy.LegacyOp.removeMember 0 3 1]
    (by decide) (by decide)

/-- C2: delete_workspace on a workspace of the personal kind is refused for
every caller — the kind check precedes the role comparison, so even the
owner is denied — and the state is left untouched, the workspace still
present. -/
theorem c2_personal_workspace_not_deletable (db : Svc.SvcDB)
    (callerId wid : String) (w : Svc.WorkspaceRow)
    (hw : Svc.findWorkspace db wid = some w) (hp : w.type = "personal") :
    (∃ msg, Svc.delete_workspace db callerId wid = .error msg)
    ∧ Svc.applyDeleteWorkspace db callerId wid = db
    ∧ Svc.findWorkspace (Svc.applyDeleteWorkspace db callerId wid) wid = some w := by
  have herr : ∃ msg, Svc.delete_workspace db callerId wid = .error msg := by
    unfold Svc.delete_workspace Svc.get_workspace
    rw [hw]
    cases hm : Svc.findMember db wid callerId with
    | none => exact ⟨"Workspace not found", rfl⟩
    | some m =>
      refine ⟨"Cannot delete personal workspace", ?_⟩
      simp [hp]
  obtain ⟨msg, hmsg⟩ := herr
  refine ⟨⟨msg, hmsg⟩, ?_, ?_⟩
  · unfold Svc.applyDeleteWorkspace
    rw [hmsg]
  · unfold Svc.applyDeleteWorkspace
    rw [hmsg]
    exact hw

/-- Witness for C2 with the owner itself as caller of the delete on its
personal workspace. -/
theorem c2_personal_workspace_not_deletable_witness :
    (∃ msg, Svc.delete_workspace Svc.personalDB "A" "w1" = .error msg)
    ∧ Svc.applyDeleteWorkspace Svc.personalDB "A" "w1" = Svc.personalDB
    ∧ Svc.findWorkspace (Svc.applyDeleteWorkspace Svc.personalDB "A" "w1") "w1" =
        some ⟨"w1", "My Workspace", "my-workspace-0a0a", "personal", "A", none⟩ :=
  c2_personal_workspace_not_deletable Svc.personalDB "A" "w1"
    ⟨"w1", "My Workspace", "my-workspace-0a0a", "personal", "A", none⟩
    (by decide) (by decide)

/-- C6 counterexample: with owner A of the team workspace as caller and a
target B who holds no membership, update_member_role affects zero rows yet
returns its success payload, and remove_member deletes zero rows yet
returns True; neither reports Denied or Conflict. -/
theorem c6_counterexample :
    Svc.findMember Svc.teamDB "w1" "B" = none
    ∧ Svc.update_member_role Svc.teamDB "A" "w1" "B" "viewer" =
        .ok (("B", "viewer"), Svc.teamDB)
    ∧ Svc.remove_member Svc.teamDB "A" "w1" "B" = .ok (true, Svc.teamDB) := by
  decide

/-- C6 amended: the services layer never inspects the number of rows an
authorization-sensitive conditional update affected — when the guards pass
but the target holds no membership, update_member_role reports its success
payload and remove_member reports True while the state is unchanged. -/
theorem c6_amended_zero_rows_silent_success (db : Svc.SvcDB)
    (c wid target role : String)
    (hown : ∃ r, Svc.verifyOwner db c wid = .ok r)
    (hne : (target == c) = false)
    (hnr : (role == "owner") = false)
    (hmiss : Svc.findMember db wid target = none) :
    Svc.update_member_role db c wid target role = .ok ((target, role), db)
    ∧ Svc.remove_member db c wid target = .ok (true, db) := by
  obtain ⟨r, hv⟩ := hown
  have hall : ∀ m ∈ db.members, (m.workspaceId == wid && m.userId == target) = false := by
    intro m hm
    have := List.find?_eq_none.mp hmiss m hm
    simpa using this
  have hmap : db.members.map (fun m =>
      if m.workspaceId == wid && m.userId == target then { m with role := role } else m) =
      db.members := by
    have := List.map_congr_left (l := db.members)
      (f := fun m : Svc.MemberRow =>
        if m.workspaceId == wid && m.userId == target then { m with role := role } else m)
      (g := fun m : Svc.MemberRow => m)
      (fun a ha => by simp [hall a ha])
    rw [this, List.map_id']
  have hfil : db.members.filter (fun m =>
      !(m.workspaceId == wid && m.userId == target)) = db.members :=
    List.filter_eq_self.mpr (fun a ha => by simp [hall a ha])
  constructor
  · unfold Svc.update_member_role
    rw [hv]
    simp only [hne, hnr, Bool.false_eq_true, if_false]
    rw [hmap]
  · unfold Svc.remove_member
    rw [hv]
    simp only [hne, Bool.false_eq_true, if_false]
    rw [hfil]

/-- Witness for the amended C6 on the concrete team workspace. -/
theorem c6_amended_zero_rows_silent_success_witness :
    Svc.update_member_role Svc.teamDB "A" "w1" "B" "viewer" =
      .ok (("B", "viewer"), Svc.teamDB)
    ∧ Svc.remove_member Svc.teamDB "A" "w1" "B" = .ok (true, Svc.teamDB) :=
  c6_amended_zero_rows_silent_success Svc.teamDB "A" "w1" "B" "viewer"
    ⟨"owner", by decide⟩ (by decide) (by decide) (by decide)

theorem legacy_no_pending_after (tok : String) (now now2 : Nat)
    (inv : Legacy.LInvitation) (hle : now ≤ now2) :
    ∀ l : List Legacy.LInvitation,
      (l.filter (fun i => i.token == tok)).length ≤ 1 →
      l.find? (Legacy.pendingInvP tok now) = some inv →
      ∀ i ∈ Legacy.updateFirstP (Legacy.pendingInvP tok now)
          (fun i => { i with isActive := false, acceptedAt := some now }) l,
        Legacy.pendingInvP tok now2 i = false := by
  intro l
  induction l with
  | nil => intro _ hfind; simp at hfind
  | cons x xs ih =>
    intro hcount hfind i hi
    by_cases hx : Legacy.pendingInvP tok now x = true
    · simp only [Legacy.updateFirstP, hx, if_true] at hi
      rcases List.mem_cons.mp hi with heq | hmem
      · subst heq
        simp [Legacy.pendingInvP]
      · have hxtok : (x.token == tok) = true := by
          have hx2 := hx
          simp only [Legacy.pendingInvP, Bool.and_eq_true] at hx2
          exact hx2.1.1.1
        have hzero : (xs.filter (fun i => i.token == tok)).length = 0 := by
          rw [List.filter_cons_of_pos
            (p := fun i : Legacy.LInvitation => i.token == tok) hxtok] at hcount
          simp only [List.length_cons] at hcount
          omega
        have hitok : (i.token == tok) = false := by
          have hnil := List.length_eq_zero.mp hzero
          have := List.filter_eq_nil_iff.mp hnil i hmem
          simpa using this
        simp only [Legacy.pendingInvP, hitok, Bool.false_and]
    · have hx2 : Legacy.pendingInvP tok now x = false := by
        cases hb : Legacy.pendingInvP tok now x with
        | false => rfl
        | true => exact absurd hb hx
      simp only [Legacy.updateFirstP, hx2, Bool.false_eq_true, if_false] at hi
      rcases List.mem_cons.mp hi with heq | hmem
      · subst heq
        cases hb : Legacy.pendingInvP tok now2 i with
        | false => rfl
        | true =>
          exfalso
          have hb2 := hb
          simp only [Legacy.pendingInvP, Bool.and_eq_true, decide_eq_true_eq] at hb2
          obtain ⟨⟨⟨ht, ha⟩, hacc⟩, hexp⟩ := hb2
          have hnow : Legacy.pendingInvP tok now i = true := by
            simp only [Legacy.pendingInvP, Bool.and_eq_true, decide_eq_true_eq]
            exact ⟨⟨⟨ht, ha⟩, hacc⟩, by omega⟩
          exact absurd hnow hx
      · have hfind2 : xs.find? (Legacy.pendingInvP tok now) = some inv := by
          rwa [List.find?_cons_of_neg _ hx] at hfind
        have hcount2 : (xs.filter (fun i => i.token == tok)).length ≤ 1 := by
          cases hxb : (x.token == tok) with
          | false =>
            rwa [List.filter_cons_of_neg
              (p := fun i : Legacy.LInvitation => i.token == tok) (by simp [hxb])] at hcount
          | true =>
            rw [List.filter_cons_of_pos
              (p := fun i : Legacy.LInvitation => i.token == tok) hxb] at hcount
            simp only [List.length_cons] at hcount
            omega
        exact ih hcount2 hfind2 i hmem

/-- C7 counterexample: in a state where the accepting user already holds a
membership, accept_invitation succeeds, leaves the store unchanged — the
invitation stays active and unaccepted — and a second call with the same
token succeeds again instead of returning the invalid-or-expired outcome. -/
theorem c7_counterexample :
    ((Legacy.accept_invitation Legacy.memberInviteDB "tok1" 5 0).1).isSome = true
    ∧ (Legacy.accept_invitation Legacy.memberInviteDB "tok1" 5 0).2 =
        Legacy.memberInviteDB
    ∧ ((Legacy.accept_invitation
        ((Legacy.accept_invitation Legacy.memberInviteDB "tok1" 5 0).2)
        "tok1" 5 0).1) ≠ none
    ∧ Legacy.pairCount Legacy.memberInviteDB 1 5 = 1 := by
  decide

/-- C7 amended: under unique invitation tokens and at-most-one membership
per pair, a pending, email-matched acceptance succeeds and leaves exactly
one membership for the invitation pair.  When the pair held no membership,
the insert consumes the invitation, and any later call with the same token
by any user returns none with the state unchanged; when the pair was
already a member, the call returns the existing row and does not consume
the invitation, so the state is unchanged and the token stays usable. -/
theorem c7_amended_single_use (db : Legacy.LegacyDB) (tok : String)
    (uid now : Nat) (inv : Legacy.LInvitation) (user : Legacy.LUser)
    (htok : Legacy.tokenCount db tok ≤ 1)
    (hi : db.invitations.find? (Legacy.pendingInvP tok now) = some inv)
    (husr : db.users.find? (fun u => u.id == uid) = some user)
    (hem : user.email = inv.email)
    (hpair : Legacy.pairCount db inv.workspaceId uid ≤ 1) :
    (∃ m, (Legacy.accept_invitation db tok uid now).1 = some m)
    ∧ Legacy.pairCount ((Legacy.accept_invitation db tok uid now).2)
        inv.workspaceId uid = 1
    ∧ (db.members.find? (fun x => x.workspaceId == inv.workspaceId && x.userId == uid)
          = none →
        ∀ uid2 now2, now ≤ now2 →
          Legacy.accept_invitation
              ((Legacy.accept_invitation db tok uid now).2) tok uid2 now2
            = (none, (Legacy.accept_invitation db tok uid now).2))
    ∧ (∀ m, db.members.find? (fun x => x.workspaceId == inv.workspaceId && x.userId == uid)
          = some m →
        Legacy.accept_invitation db tok uid now = (some m, db)) := by
  cases hex : db.members.find?
      (fun x => x.workspaceId == inv.workspaceId && x.userId == uid) with
  | some existing =>
    have hacc : Legacy.accept_invitation db tok uid now = (some existing, db) := by
      simp [Legacy.accept_invitation, hi, husr, hex, hem]
    refine ⟨⟨existing, by rw [hacc]⟩, ?_, ?_, ?_⟩
    · rw [hacc]
      show Legacy.pairCount db inv.workspaceId uid = 1
      have hmem := List.mem_of_find?_eq_some hex
      have hprops := List.find?_some hex
      have hone : existing ∈ db.members.filter
          (fun m => m.workspaceId == inv.workspaceId && m.userId == uid) :=
        List.mem_filter.mpr ⟨hmem, hprops⟩
      have := List.length_pos_of_mem hone
      unfold Legacy.pairCount at hpair ⊢
      omega
    · intro hnone
      simp at hnone
    · intro m hm
      have : existing = m := Option.some.inj hm
      rw [hacc, this]
  | none =>
    have hacc : Legacy.accept_invitation db tok uid now =
        (some ⟨inv.workspaceId, uid, inv.role⟩,
         { db with
             members := db.members ++ [⟨inv.workspaceId, uid, inv.role⟩],
             invitations := Legacy.updateFirstP (Legacy.pendingInvP tok now)
               (fun i => { i with isActive := false, acceptedAt := some now })
               db.invitations }) := by
      simp [Legacy.accept_invitation, hi, husr, hex, hem]
    refine ⟨⟨(⟨inv.workspaceId, uid, inv.role⟩ : Legacy.LMember), by rw [hacc]⟩, ?_, ?_, ?_⟩
    · rw [hacc]
      have hnilf : db.members.filter
          (fun m => m.workspaceId == inv.workspaceId && m.userId == uid) = [] :=
        List.filter_eq_nil_iff.mpr (List.find?_eq_none.mp hex)
      show (((db.members ++ [(⟨inv.workspaceId, uid, inv.role⟩ : Legacy.LMember)]).filter
        (fun m => m.workspaceId == inv.workspaceId && m.userId == uid)).length) = 1
      rw [List.filter_append, hnilf]
      simp
    · intro hfresh uid2 now2 hle
      rw [hacc]
      have hnone2 : (Legacy.updateFirstP (Legacy.pendingInvP tok now)
          (fun i => { i with isActive := false, acceptedAt := some now })
          db.invitations).find? (Legacy.pendingInvP tok now2) = none := by
        apply List.find?_eq_none.mpr
        intro x hx
        have := legacy_no_pending_after tok now now2 inv hle db.invitations htok hi x hx
        simp [this]
      simp [Legacy.accept_invitation, hnone2]
    · intro m hm
      simp at hm

/-- Witness for the amended C7: accepting the pending invitation of the
concrete store, where user 5 is not yet a member, succeeds, leaves exactly
one membership for the pair, and consumes the token so that any later call
with it fails. -/
theorem c7_amended_single_use_witness :
    (∃ m, (Legacy.accept_invitation Legacy.freshInviteDB "tok1" 5 0).1 = some m)
    ∧ Legacy.pairCount
        ((Legacy.accept_invitation Legacy.freshInviteDB "tok1" 5 0).2) 1 5 = 1
    ∧ (Legacy.freshInviteDB.members.find?
          (fun x => x.workspaceId == 1 && x.userId == 5) = none →
        ∀ uid2 now2, 0 ≤ now2 →
          Legacy.accept_invitation
              ((Legacy.accept_invitation Legacy.freshInviteDB "tok1" 5 0).2)
              "tok1" uid2 now2
            = (none, (Legacy.accept_invitation Legacy.freshInviteDB "tok1" 5 0).2))
    ∧ (∀ m, Legacy.freshInviteDB.members.find?
          (fun x => x.workspaceId == 1 && x.userId == 5) = some m →
        Legacy.accept_invitation Legacy.freshInviteDB "tok1" 5 0 =
          (some m, Legacy.freshInviteDB)) :=
  c7_amended_single_use Legacy.freshInviteDB "tok1" 5 0
    ⟨1, "b@x.com", "editor", "tok1", true, none, 100, 2⟩
    ⟨5, "b@x.com"⟩
    (by decide) (by decide) (by decide) (by decide) (by decide)
